import Mathlib

/-!
Verification of the text-normalization and topic-extraction pipeline of
`nb03_modeling-part2.ipynb` (customer-satisfaction topic-modeling notebook).

The notebook core is:

* `tokenize(text)` — the Text Normalizer:
    1. `text = re.sub(r'[^0-9a-zA-Z]', ' ', text)`
    2. `tokens = word_tokenize(text)`
    3. `tokens = [w for w in tokens if w in ENGLISH_VOCABULARY and len(w) > 1]`
    4./5. `tokens_lem = [lemmatizer.lemmatize(t.strip().lower()) for t in tokens
                         if t not in STOP_WORDS_ENG]`
* a `TfidfVectorizer(tokenizer=tokenize)` + `LatentDirichletAllocation`
  pipeline fitted on the comment collection,
* `display_topics(number_of_top_words, model_pipeline, vocab)`, which ranks,
  for each LDA component of the global fitted `model`, the vocabulary terms by
  descending weight and reports the top words per 1-based topic index.

The embedding below follows the notebook.  The ambient linguistic resources
(`ENGLISH_VOCABULARY`, `STOP_WORDS_ENG`, the WordNet lemmatizer) are external
data loaded from nltk at startup; they are modelled as explicit parameters
(`vocab`, `stop_words`, `lemmatize`).  `word_tokenize` is only ever applied to
text whose characters are ASCII alphanumerics and spaces (the output of
step 1), where it coincides with whitespace splitting; it is embedded as such.
The TF-IDF weighting and the LDA factorization are numerical routines of
scikit-learn; they enter the embedding as explicit function arguments, while
the vocabulary construction of the vectorizer (lower-case preprocessing, then
the custom tokenizer, then collecting the sorted distinct terms — its
documented behaviour under the default settings) is embedded concretely.
-/

/-- One character of step 1 of `tokenize`: `re.sub(r'[^0-9a-zA-Z]', ' ', text)`
replaces every character that is not an ASCII letter or digit by a space.
`Char.isAlphanum` is exactly the ASCII class `[0-9a-zA-Z]`. -/
def cleanChar (c : Char) : Char :=
  if c.isAlphanum then c else ' '

/-- Step 1 of `tokenize`: `re.sub(r'[^0-9a-zA-Z]', ' ', text)`. -/
def clean (text : String) : String :=
  String.mk (text.data.map cleanChar)

/-- Split a character list at spaces (possibly producing empty chunks). -/
def splitChars : List Char → List (List Char)
  | [] => [[]]
  | c :: cs =>
    if c = ' ' then [] :: splitChars cs
    else
      match splitChars cs with
      | [] => [[c]]
      | t :: ts => (c :: t) :: ts

/-- Step 2 of `tokenize`: `word_tokenize` applied to the cleaned text.  The
cleaned text contains only ASCII alphanumerics and spaces, on which nltk
`word_tokenize` coincides with splitting at whitespace and dropping empty
chunks. -/
def word_tokenize (text : String) : List String :=
  ((splitChars text.data).filter (fun t => t ≠ [])).map String.mk

/-- Python `str.strip()`: remove leading and trailing whitespace. -/
def pyStrip (s : String) : String :=
  String.mk (((s.data.dropWhile Char.isWhitespace).reverse.dropWhile
    Char.isWhitespace).reverse)

/-- Python `str.lower()` on ASCII text. -/
def pyLower (s : String) : String :=
  String.mk (s.data.map Char.toLower)

/-- Step 3 of `tokenize`:
`[word for word in tokens if word in ENGLISH_VOCABULARY and len(word) > 1]`.
The membership test is literal (case-sensitive) string membership in the
(lower-cased) vocabulary list. -/
def vocabFilter (vocab : List String) (tokens : List String) : List String :=
  tokens.filter (fun word => decide (word ∈ vocab) && decide (1 < word.length))

/-- Steps 4 and 5 of `tokenize`:
`[lemmatizer.lemmatize(token.strip().lower()) for token in tokens
  if token not in STOP_WORDS_ENG]` — the stop-word test applies to the
pre-lemmatized token, the emitted item is the lemma of the stripped,
lower-cased token. -/
def lemStep (stop_words : List String) (lemmatize : String → String)
    (tokens : List String) : List String :=
  (tokens.filter (fun token => decide (token ∉ stop_words))).map
    (fun token => lemmatize (pyLower (pyStrip token)))

/-- The Text Normalizer `tokenize(text)` of the notebook, with the ambient
global resources (`ENGLISH_VOCABULARY`, `STOP_WORDS_ENG`, the WordNet
lemmatizer) passed explicitly. -/
def tokenize (vocab stop_words : List String) (lemmatize : String → String)
    (text : String) : List String :=
  lemStep stop_words lemmatize (vocabFilter vocab (word_tokenize (clean text)))

/-- Behaviour of `tokenize` on a Python value that may be `None`: the first
statement `re.sub(r'[^0-9a-zA-Z]', ' ', text)` raises a `TypeError` when
`text` is `None`. -/
def tokenizeChecked (vocab stop_words : List String)
    (lemmatize : String → String) (text : Option String) :
    Except String (List String) :=
  match text with
  | none => Except.error "TypeError: expected string or bytes-like object"
  | some t => Except.ok (tokenize vocab stop_words lemmatize t)

/-- Join a token list back into text with single spaces (re-normalization
input: the output token sequence joined back to text). -/
def joinWithSpace : List String → String
  | [] => ""
  | [t] => t
  | t :: u :: ts => t ++ " " ++ joinWithSpace (u :: ts)

/-- The fitted pipeline LDA state,
`model.named_steps.get('latentdirichletallocation').components_`: a matrix
with one row (a weight vector over all matrix terms) per topic.  The
factorization itself is performed by scikit-learn, outside this repository. -/
structure FittedModel where
  components : List (List ℚ)

/-- Embedding of `np.argsort(component)[::-1]`: the indices of `component`
sorted by ascending weight, then reversed, so that weights are descending.
The order of `np.argsort` on equal weights is implementation-defined (the
reference uses an unstable sort); here ties are broken by index. -/
def argsortDescending (component : List ℚ) : List ℕ :=
  ((List.range component.length).insertionSort
    (fun i j => component.getD i 0 < component.getD j 0 ∨
      (component.getD i 0 = component.getD j 0 ∧ i ≤ j))).reverse

/-- The selection `word_idx = np.argsort(component)[::-1][:number_of_top_words]`
of `display_topics`. -/
def topWordIdx (component : List ℚ) (number_of_top_words : ℕ) : List ℕ :=
  (argsortDescending component).take number_of_top_words

/-- The reporting function `display_topics(number_of_top_words, model_pipeline,
vocab)` of the notebook, with the ambient global `model` passed explicitly.
The body reads the components of the global `model`, not of the
`model_pipeline` argument; for each topic (reported 1-based) it lists `vocab`
at the top-ranked component indices. -/
def display_topics {α : Type} (model : FittedModel) (number_of_top_words : ℕ)
    (model_pipeline : α) (vocab : List String) : List (ℕ × List String) :=
  (List.range model.components.length).map (fun topic =>
    (topic + 1,
      (topWordIdx (model.components.getD topic []) number_of_top_words).map
        (fun i => vocab.getD i "")))

/-- The analyzer of `TfidfVectorizer(tokenizer=tokenize)`: with the default
`lowercase=True`, the vectorizer lower-cases each raw document before the
custom tokenizer is applied. -/
def analyzer (vocab stop_words : List String) (lemmatize : String → String)
    (document : String) : List String :=
  tokenize vocab stop_words lemmatize (pyLower document)

/-- The vectorizer vocabulary
`model.named_steps.get('tfidfvectorizer').get_feature_names()`: the sorted
distinct terms produced by the analyzer across the corpus (with the default
`min_df=1`, `max_df=1.0` no term is pruned). -/
def feature_names (vocab stop_words : List String) (lemmatize : String → String)
    (documents : List String) : List String :=
  ((documents.flatMap (analyzer vocab stop_words lemmatize)).dedup).insertionSort
    (fun a b => a ≤ b)

/-- The full Topic Extractor run of the notebook
(`model.fit_transform(comments.comment)` followed by
`display_topics(number_of_top_words, model, vocabulary)`).  The TF-IDF
weighting and the LDA factorization are performed by scikit-learn; they enter
as explicit function arguments `weigh` and `factorize` (the latter a function
of the matrix, the topic count and the random seed, per the documented
`random_state` reproducibility contract of the library). -/
def extract_topics (factorize : List (List ℚ) → ℕ → ℕ → List (List ℚ))
    (weigh : List (List String) → List String → List (List ℚ))
    (vocab stop_words : List String) (lemmatize : String → String)
    (documents : List String) (number_of_topics number_of_top_words seed : ℕ) :
    List (ℕ × List String) :=
  let vocabulary := feature_names vocab stop_words lemmatize documents
  let matrix := weigh (documents.map (analyzer vocab stop_words lemmatize)) vocabulary
  display_topics ⟨factorize matrix number_of_topics seed⟩ number_of_top_words
    () vocabulary

lemma string_append_data (a b : String) : (a ++ b).data = a.data ++ b.data := rfl

lemma string_mk_data (s : String) : String.mk s.data = s := rfl

lemma string_length_data (s : String) : s.length = s.data.length := rfl

lemma splitChars_ne_nil (cs : List Char) : splitChars cs ≠ [] := by
  induction cs with
  | nil => simp [splitChars]
  | cons c cs ih =>
    simp only [splitChars]
    split
    · simp
    · cases h : splitChars cs with
      | nil => exact absurd h ih
      | cons t ts => simp [h]

lemma splitChars_no_space (cs : List Char) (h : ∀ c ∈ cs, c ≠ ' ') :
    splitChars cs = [cs] := by
  induction cs with
  | nil => rfl
  | cons c cs ih =>
    have hc : c ≠ ' ' := h c (List.mem_cons_self c cs)
    have hrest : splitChars cs = [cs] := ih (fun d hd => h d (List.mem_cons_of_mem c hd))
    simp [splitChars, hc, hrest]

lemma splitChars_append_space (xs ys : List Char) (h : ∀ c ∈ xs, c ≠ ' ') :
    splitChars (xs ++ ' ' :: ys) = xs :: splitChars ys := by
  induction xs with
  | nil => simp [splitChars]
  | cons x xs ih =>
    have hx : x ≠ ' ' := h x (List.mem_cons_self x xs)
    have hrest := ih (fun d hd => h d (List.mem_cons_of_mem x hd))
    simp only [List.cons_append, splitChars, List.append_eq, if_neg hx, hrest]

lemma clean_append (a b : String) : clean (a ++ b) = clean a ++ clean b := by
  show String.mk ((a.data ++ b.data).map cleanChar)
      = String.mk (a.data.map cleanChar ++ b.data.map cleanChar)
  rw [List.map_append]

lemma clean_eq_self (s : String)
    (h : ∀ c ∈ s.data, c.isAlphanum = true ∨ c = ' ') : clean s = s := by
  show String.mk (s.data.map cleanChar) = s
  have hmap : s.data.map cleanChar = s.data.map id := by
    apply List.map_congr_left
    intro c hc
    rcases h c hc with h1 | h1
    · simp [cleanChar, h1]
    · simp [cleanChar, h1]
  rw [hmap, List.map_id, string_mk_data]

lemma alnum_ne_space (c : Char) (h : c.isAlphanum = true) : c ≠ ' ' := by
  intro he
  rw [he] at h
  exact absurd h (by decide)

lemma clean_joinWithSpace (L : List String)
    (h : ∀ t ∈ L, ∀ c ∈ t.data, c.isAlphanum = true) :
    clean (joinWithSpace L) = joinWithSpace L := by
  induction L with
  | nil => rfl
  | cons t ts ih =>
    cases ts with
    | nil =>
      exact clean_eq_self t (fun c hc => Or.inl (h t (List.mem_cons_self t []) c hc))
    | cons u us =>
      show clean (t ++ " " ++ joinWithSpace (u :: us)) = t ++ " " ++ joinWithSpace (u :: us)
      rw [clean_append, clean_append,
        clean_eq_self t (fun c hc => Or.inl (h t (List.mem_cons_self t (u :: us)) c hc)),
        ih (fun s hs => h s (List.mem_cons_of_mem t hs))]
      rfl

lemma word_tokenize_join (L : List String)
    (h : ∀ t ∈ L, t.data ≠ [] ∧ ∀ c ∈ t.data, c ≠ ' ') :
    word_tokenize (joinWithSpace L) = L := by
  induction L with
  | nil => rfl
  | cons t ts ih =>
    cases ts with
    | nil =>
      obtain ⟨hne, hsp⟩ := h t (List.mem_cons_self t [])
      show ((splitChars t.data).filter (fun x => x ≠ [])).map String.mk = [t]
      rw [splitChars_no_space t.data hsp]
      simp [hne, string_mk_data]
    | cons u us =>
      obtain ⟨hne, hsp⟩ := h t (List.mem_cons_self t (u :: us))
      have hdata : (t ++ " " ++ joinWithSpace (u :: us)).data
          = t.data ++ ' ' :: (joinWithSpace (u :: us)).data := by
        simp [string_append_data]
      show ((splitChars (t ++ " " ++ joinWithSpace (u :: us)).data).filter
          (fun x => x ≠ [])).map String.mk = t :: u :: us
      rw [hdata, splitChars_append_space t.data _ hsp]
      have hrest := ih (fun s hs => h s (List.mem_cons_of_mem t hs))
      show ((t.data :: splitChars (joinWithSpace (u :: us)).data).filter
          (fun x => x ≠ [])).map String.mk = t :: u :: us
      rw [List.filter_cons_of_pos (by simpa using hne), List.map_cons, string_mk_data]
      exact congrArg (t :: ·) hrest

lemma tokenize_join (vocab stop_words : List String) (lemmatize : String → String)
    (L : List String)
    (h : ∀ t ∈ L, t ∈ vocab ∧ t ∉ stop_words ∧ 1 < t.length ∧
      (∀ c ∈ t.data, c.isAlphanum = true) ∧ lemmatize (pyLower (pyStrip t)) = t) :
    tokenize vocab stop_words lemmatize (joinWithSpace L) = L := by
  have hword : word_tokenize (clean (joinWithSpace L)) = L := by
    rw [clean_joinWithSpace L (fun t ht => (h t ht).2.2.2.1)]
    apply word_tokenize_join
    intro t ht
    refine ⟨?_, fun c hc => alnum_ne_space c ((h t ht).2.2.2.1 c hc)⟩
    have hlen : 1 < t.data.length := by
      rw [← string_length_data]; exact (h t ht).2.2.1
    exact List.ne_nil_of_length_pos (Nat.lt_trans Nat.zero_lt_one hlen)
  unfold tokenize
  rw [hword]
  have hvf : vocabFilter vocab L = L := by
    apply List.filter_eq_self.mpr
    intro t ht
    simp only [Bool.and_eq_true, decide_eq_true_eq]
    exact ⟨(h t ht).1, (h t ht).2.2.1⟩
  rw [hvf]
  unfold lemStep
  have hsf : L.filter (fun token => decide (token ∉ stop_words)) = L := by
    apply List.filter_eq_self.mpr
    intro t ht
    simpa using (h t ht).2.1
  rw [hsf]
  have hmap : L.map (fun token => lemmatize (pyLower (pyStrip token))) = L.map id :=
    List.map_congr_left (fun t ht => (h t ht).2.2.2.2)
  rw [hmap, List.map_id]

lemma getD_map_range {β : Type} (f : ℕ → β) (n j : ℕ) (d : β) (hj : j < n) :
    ((List.range n).map f).getD j d = f j := by
  rw [List.getD_eq_getElem?_getD, List.getElem?_map, List.getElem?_range hj]
  rfl

lemma length_argsortDescending (w : List ℚ) :
    (argsortDescending w).length = w.length := by
  unfold argsortDescending
  rw [List.length_reverse, List.length_insertionSort, List.length_range]

lemma sorted_argsortDescending (w : List ℚ) :
    List.Sorted (fun a b => w.getD b 0 ≤ w.getD a 0) (argsortDescending w) := by
  haveI : IsTotal ℕ (fun i j =>
      w.getD i 0 < w.getD j 0 ∨ (w.getD i 0 = w.getD j 0 ∧ i ≤ j)) := by
    constructor
    intro a b
    rcases lt_trichotomy (w.getD a 0) (w.getD b 0) with h | h | h
    · exact Or.inl (Or.inl h)
    · rcases Nat.le_total a b with hab | hab
      · exact Or.inl (Or.inr ⟨h, hab⟩)
      · exact Or.inr (Or.inr ⟨h.symm, hab⟩)
    · exact Or.inr (Or.inl h)
  haveI : IsTrans ℕ (fun i j =>
      w.getD i 0 < w.getD j 0 ∨ (w.getD i 0 = w.getD j 0 ∧ i ≤ j)) := by
    constructor
    intro a b c hab hbc
    rcases hab with h1 | ⟨h1, h1i⟩ <;> rcases hbc with h2 | ⟨h2, h2i⟩
    · exact Or.inl (h1.trans h2)
    · exact Or.inl (h2 ▸ h1)
    · exact Or.inl (h1 ▸ h2)
    · exact Or.inr ⟨h1.trans h2, Nat.le_trans h1i h2i⟩
  have hs := List.sorted_insertionSort
    (fun i j => w.getD i 0 < w.getD j 0 ∨ (w.getD i 0 = w.getD j 0 ∧ i ≤ j))
    (List.range w.length)
  unfold argsortDescending
  rw [List.Sorted, List.pairwise_reverse]
  exact hs.imp (fun hab => by
    rcases hab with h | ⟨h, _⟩
    · exact le_of_lt h
    · exact le_of_eq h)

lemma sorted_topWordIdx (w : List ℚ) (n : ℕ) :
    List.Sorted (fun a b => w.getD b 0 ≤ w.getD a 0) (topWordIdx w n) :=
  (sorted_argsortDescending w).sublist (List.take_sublist n _)

lemma length_topWordIdx (w : List ℚ) (n : ℕ) (h : n ≤ w.length) :
    (topWordIdx w n).length = n := by
  unfold topWordIdx
  rw [List.length_take, length_argsortDescending]
  exact Nat.min_eq_left h

/-- C1 (counterexample): the retention test of `tokenize` is not
case-insensitive.  With reference vocabulary {service} (stored lower-cased, as
`ENGLISH_VOCABULARY` is), the input word "Service" lower-cases to an
in-vocabulary word of length > 1, yet nothing is retained: the membership test
compares the literal token against the lower-cased vocabulary. -/
theorem tokenize_uppercase_dropped_cex :
    pyLower "Service" = "service" ∧ ("service" : String) ∈ ["service"] ∧
    1 < "Service".length ∧
    vocabFilter ["service"] (word_tokenize (clean "Service")) = [] ∧
    tokenize ["service"] [] id "Service" = [] := by decide

/-- C1 (amended): a token is retained after tokenization iff its literal,
case-sensitive form appears in the reference vocabulary and its length is
strictly greater than 1 character. -/
theorem vocabFilter_retains_iff (vocab tokens : List String) (word : String) :
    word ∈ vocabFilter vocab tokens ↔
      word ∈ tokens ∧ word ∈ vocab ∧ 1 < word.length := by
  simp [vocabFilter, List.mem_filter, and_assoc]

/-- C2 (counterexample): the stop-word test applies to the pre-lemmatized
token, not to the emitted lemma.  With vocabulary {ares}, stop words {are} and
a lemmatizer sending "ares" to "are", the normalizer emits "are", which is a
stop word (and is not in the vocabulary). -/
theorem emitted_lemma_stopword_cex :
    tokenize ["ares"] ["are"] (fun s => if s = "ares" then "are" else s) "ares"
      = ["are"] ∧ ("are" : String) ∈ ["are"] ∧ ("are" : String) ∉ ["ares"] := by
  decide

/-- C2 (amended): every token emitted by the Text Normalizer is the lemma of
the stripped, lower-cased form of a surviving pre-lemma token, and it is that
pre-lemma token — not the emitted lemma — that has length > 1, appears
verbatim in the reference vocabulary, and is not in the stop-word set. -/
theorem emitted_token_from_filtered_token (vocab stop_words : List String)
    (lemmatize : String → String) (text t : String)
    (h : t ∈ tokenize vocab stop_words lemmatize text) :
    ∃ s, s ∈ word_tokenize (clean text) ∧ s ∈ vocab ∧ 1 < s.length ∧
      s ∉ stop_words ∧ t = lemmatize (pyLower (pyStrip s)) := by
  simp only [tokenize, lemStep, vocabFilter, List.mem_map, List.mem_filter,
    Bool.and_eq_true, decide_eq_true_eq] at h
  obtain ⟨s, ⟨⟨hs1, hs2, hs3⟩, hs4⟩, ht⟩ := h
  exact ⟨s, hs1, hs2, hs3, hs4, ht.symm⟩

/-- C2 (witness): concrete instance of `emitted_token_from_filtered_token`. -/
theorem emitted_token_from_filtered_token_witness :
    ∃ s, s ∈ word_tokenize (clean "good service") ∧ s ∈ ["service", "good"] ∧
      1 < s.length ∧ s ∉ (["the"] : List String) ∧
      ("service" : String) = id (pyLower (pyStrip s)) :=
  emitted_token_from_filtered_token ["service", "good"] ["the"] id
    "good service" "service" (by decide)

/-- C4 (counterexample): on a null (`None`) input the Text Normalizer does not
return an empty token sequence — the initial `re.sub` call raises a
`TypeError`. -/
theorem tokenize_none_raises_cex :
    tokenizeChecked [] [] id none ≠ Except.ok [] := by
  simp [tokenizeChecked]

/-- C4 (amended): an empty string yields an empty token sequence without
error, while a null (`None`) input raises a `TypeError` from the initial
regex substitution rather than yielding an empty sequence. -/
theorem tokenize_empty_and_none (vocab stop_words : List String)
    (lemmatize : String → String) :
    tokenize vocab stop_words lemmatize "" = [] ∧
    tokenizeChecked vocab stop_words lemmatize none =
      Except.error "TypeError: expected string or bytes-like object" :=
  ⟨rfl, rfl⟩

/-- C5: with a reference vocabulary containing service and bad and stop words
containing this, is, so, the Text Normalizer maps
"This service is SO bad!!! 123" to exactly ["service", "bad"], for any
lemmatizer fixing "service" and "bad" (as the WordNet lemmatizer does). -/
theorem tokenize_example_scenario (lemmatize : String → String)
    (hserv : lemmatize "service" = "service") (hbad : lemmatize "bad" = "bad") :
    tokenize ["service", "bad"] ["this", "is", "so"] lemmatize
      "This service is SO bad!!! 123" = ["service", "bad"] := by
  have h : tokenize ["service", "bad"] ["this", "is", "so"] lemmatize
      "This service is SO bad!!! 123" = [lemmatize "service", lemmatize "bad"] := rfl
  rw [h, hserv, hbad]

/-- C5 (witness): the example scenario at the identity lemmatizer. -/
theorem tokenize_example_scenario_witness :
    tokenize ["service", "bad"] ["this", "is", "so"] id
      "This service is SO bad!!! 123" = ["service", "bad"] :=
  tokenize_example_scenario id rfl rfl

/-- C6: provided every LDA component has one weight per vocabulary term and
the vocabulary holds at least `number_of_top_words` terms, `display_topics`
emits exactly as many topic entries as there are components (the topic count),
the entry at position j carries the 1-based index j + 1 and exactly
`number_of_top_words` terms, namely the vocabulary at the top-ranked indices,
which are ordered by descending topic weight. -/
theorem display_topics_shape {α : Type} (model : FittedModel) (mp : α)
    (vocab : List String) (k number_of_top_words : ℕ)
    (hk : model.components.length = k)
    (hrow : ∀ comp ∈ model.components, comp.length = vocab.length)
    (htop : number_of_top_words ≤ vocab.length) :
    (display_topics model number_of_top_words mp vocab).length = k ∧
    ∀ j, j < k →
      ((display_topics model number_of_top_words mp vocab).getD j (0, [])).1 = j + 1 ∧
      ((display_topics model number_of_top_words mp vocab).getD j (0, [])).2 =
        (topWordIdx (model.components.getD j []) number_of_top_words).map
          (fun i => vocab.getD i "") ∧
      ((display_topics model number_of_top_words mp vocab).getD j (0, [])).2.length =
        number_of_top_words ∧
      List.Sorted
        (fun a b => (model.components.getD j []).getD b 0 ≤
          (model.components.getD j []).getD a 0)
        (topWordIdx (model.components.getD j []) number_of_top_words) := by
  constructor
  · unfold display_topics
    rw [List.length_map, List.length_range, hk]
  · intro j hj
    have hjlen : j < model.components.length := hk ▸ hj
    have hget : (display_topics model number_of_top_words mp vocab).getD j (0, []) =
        (j + 1,
          (topWordIdx (model.components.getD j []) number_of_top_words).map
            (fun i => vocab.getD i "")) := by
      unfold display_topics
      exact getD_map_range _ _ _ _ hjlen
    have hcomp : model.components.getD j [] ∈ model.components := by
      simp only [List.getD_eq_getElem?_getD, List.getElem?_eq_getElem hjlen,
        Option.getD_some]
      exact List.getElem_mem hjlen
    have hcomplen : number_of_top_words ≤ (model.components.getD j []).length := by
      rw [hrow _ hcomp]; exact htop
    refine ⟨by rw [hget], by rw [hget], ?_, sorted_topWordIdx _ _⟩
    rw [hget]
    simp only [List.length_map]
    exact length_topWordIdx _ _ hcomplen

/-- C6 (witness): `display_topics_shape` at a concrete two-component model. -/
theorem display_topics_shape_witness :
    (display_topics ⟨[[1, 2], [3, 1]]⟩ 2 (0 : ℕ) ["aa", "bb"]).length = 2 ∧
    ∀ j, j < 2 →
      ((display_topics ⟨[[1, 2], [3, 1]]⟩ 2 (0 : ℕ) ["aa", "bb"]).getD j (0, [])).1 =
        j + 1 ∧
      ((display_topics ⟨[[1, 2], [3, 1]]⟩ 2 (0 : ℕ) ["aa", "bb"]).getD j (0, [])).2 =
        (topWordIdx ((FittedModel.mk [[1, 2], [3, 1]]).components.getD j []) 2).map
          (fun i => (["aa", "bb"] : List String).getD i "") ∧
      ((display_topics ⟨[[1, 2], [3, 1]]⟩ 2 (0 : ℕ) ["aa", "bb"]).getD j (0, [])).2.length =
        2 ∧
      List.Sorted
        (fun a b => ((FittedModel.mk [[1, 2], [3, 1]]).components.getD j []).getD b 0 ≤
          ((FittedModel.mk [[1, 2], [3, 1]]).components.getD j []).getD a 0)
        (topWordIdx ((FittedModel.mk [[1, 2], [3, 1]]).components.getD j []) 2) :=
  display_topics_shape ⟨[[1, 2], [3, 1]]⟩ (0 : ℕ) ["aa", "bb"] 2 2 rfl
    (by decide) (by decide)

/-- C7: running the Topic Extractor twice with the same documents, topic
count, top-word count and random seed yields identical topic-term rankings.
The external factorization is a function of the matrix, the topic count and
the seed (its documented reproducibility contract), so equal runs coincide. -/
theorem extract_topics_reproducible
    (factorize : List (List ℚ) → ℕ → ℕ → List (List ℚ))
    (weigh : List (List String) → List String → List (List ℚ))
    (vocab stop_words : List String) (lemmatize : String → String)
    (documents₁ documents₂ : List String) (k₁ k₂ n₁ n₂ s₁ s₂ : ℕ)
    (hdocs : documents₁ = documents₂) (hk : k₁ = k₂) (hn : n₁ = n₂)
    (hs : s₁ = s₂) :
    extract_topics factorize weigh vocab stop_words lemmatize documents₁ k₁ n₁ s₁ =
    extract_topics factorize weigh vocab stop_words lemmatize documents₂ k₂ n₂ s₂ := by
  rw [hdocs, hk, hn, hs]

/-- C7 (witness): `extract_topics_reproducible` at a concrete run. -/
theorem extract_topics_reproducible_witness :
    extract_topics (fun _ k _ => List.replicate k [1]) (fun _ _ => [[1]])
      ["aa"] [] id ["aa"] 1 1 42 =
    extract_topics (fun _ k _ => List.replicate k [1]) (fun _ _ => [[1]])
      ["aa"] [] id ["aa"] 1 1 42 :=
  extract_topics_reproducible (fun _ k _ => List.replicate k [1]) (fun _ _ => [[1]])
    ["aa"] [] id ["aa"] ["aa"] 1 1 1 1 42 42 rfl rfl rfl rfl

/-- C8 (counterexample): re-normalization is not idempotent under the claim
hypothesis alone.  With vocabulary {aa, a}, no stop words and a lemmatizer
sending "aa" to "a", normalizing "aa" yields ["a"] — whose only token is in
the vocabulary and not a stop word — yet re-normalizing the joined output
yields [] (the token "a" fails the length-greater-than-1 retention test). -/
theorem renormalize_not_idempotent_cex :
    (∀ t ∈ tokenize ["aa", "a"] [] (fun s => if s = "aa" then "a" else s) "aa",
      t ∈ ["aa", "a"] ∧ t ∉ ([] : List String)) ∧
    tokenize ["aa", "a"] [] (fun s => if s = "aa" then "a" else s)
      (joinWithSpace (tokenize ["aa", "a"] [] (fun s => if s = "aa" then "a" else s) "aa")) ≠
    tokenize ["aa", "a"] [] (fun s => if s = "aa" then "a" else s) "aa" := by
  decide

/-- C8 (amended): the Text Normalizer is idempotent under re-normalization
provided every output token is in the reference vocabulary, not a stop word,
of length strictly greater than 1, alphanumeric-only, and a fixed point of the
strip/lower-case/lemmatize step. -/
theorem tokenize_renormalize (vocab stop_words : List String)
    (lemmatize : String → String) (text : String)
    (h : ∀ t ∈ tokenize vocab stop_words lemmatize text,
      t ∈ vocab ∧ t ∉ stop_words ∧ 1 < t.length ∧
      (∀ c ∈ t.data, c.isAlphanum = true) ∧ lemmatize (pyLower (pyStrip t)) = t) :
    tokenize vocab stop_words lemmatize
      (joinWithSpace (tokenize vocab stop_words lemmatize text)) =
    tokenize vocab stop_words lemmatize text :=
  tokenize_join vocab stop_words lemmatize _ h

/-- C8 (witness): `tokenize_renormalize` at a concrete input. -/
theorem tokenize_renormalize_witness :
    (∀ t ∈ tokenize ["ab", "cd"] ["xx"] id "ab!cd xx",
      t ∈ ["ab", "cd"] ∧ t ∉ (["xx"] : List String) ∧ 1 < t.length ∧
      (∀ c ∈ t.data, c.isAlphanum = true) ∧ id (pyLower (pyStrip t)) = t) ∧
    tokenize ["ab", "cd"] ["xx"] id
      (joinWithSpace (tokenize ["ab", "cd"] ["xx"] id "ab!cd xx")) =
    tokenize ["ab", "cd"] ["xx"] id "ab!cd xx" :=
  ⟨by decide, tokenize_renormalize ["ab", "cd"] ["xx"] id "ab!cd xx" (by decide)⟩

/-- C9 (counterexample): the matrix column terms are not the union of the
Text Normalizer output over the raw documents.  For the single document
"SERVICE" with vocabulary {service}, the vectorizer (which lower-cases each
document before tokenizing) produces the column "service", while the
normalizer applied to the raw document retains nothing. -/
theorem feature_names_raw_union_cex :
    feature_names ["service"] [] id ["SERVICE"] = ["service"] ∧
    tokenize ["service"] [] id "SERVICE" = [] := by decide

/-- C9 (amended): a term is a column of the Term-Document Weight Matrix iff it
is produced by the Text Normalizer on some lower-cased document of the
collection — the vectorizer lower-cases each raw document before applying the
custom tokenizer. -/
theorem feature_names_mem_iff (vocab stop_words : List String)
    (lemmatize : String → String) (documents : List String) (term : String) :
    term ∈ feature_names vocab stop_words lemmatize documents ↔
      ∃ d ∈ documents, term ∈ tokenize vocab stop_words lemmatize (pyLower d) := by
  unfold feature_names
  rw [(List.perm_insertionSort _ _).mem_iff, List.mem_dedup, List.mem_flatMap]
  exact Iff.rfl

/-- C10: the report of `display_topics` does not depend on its
`model_pipeline` parameter — the body reads the topic components from the
global fitted model, so any two arguments (even of different types) produce
the identical report. -/
theorem display_topics_ignores_pipeline {α β : Type} (model : FittedModel)
    (number_of_top_words : ℕ) (mp₁ : α) (mp₂ : β) (vocab : List String) :
    display_topics model number_of_top_words mp₁ vocab =
    display_topics model number_of_top_words mp₂ vocab := rfl
